import Mathlib

/-!
Verification of the currency-report web application (`app.py`) against its
natural-language specification.

The development shallowly embeds the relevant parts of the source:

* the paginator of `download_pdf` (splitting the report text on newlines and
  greedily word-wrapping lines longer than 80 characters);
* the model-invocation fallback chain of `generate_report` (three model
  identifiers tried in order, plus the empty-response check);
* the input validation of `generate_report` (API-key guard, field presence,
  currency allow-list, date parsing, date ordering);
* the message-pattern error classifier of the outer exception handler;
* the filename and body construction of `download_pdf`.

Text is modelled as `List Char`; Python's `str.split(sep)` is `splitP`,
`str.strip()` is `strip`, and the HTTP layer is modelled by explicit response
values paired with the list of model identifiers actually invoked.
-/

/-- Whitespace in the sense of Python's `str.strip()` (ASCII whitespace:
space, tab, linefeed, vertical tab, formfeed, carriage return). -/
def isWs (c : Char) : Bool :=
  c == ' ' || c == '\t' || c == '\n' || c == Char.ofNat 11 || c == Char.ofNat 12 || c == '\r'

/-- Python's `str.split(sep)` for a single-character separator: splits at every
occurrence of the separator and keeps empty fragments, so the result is never
empty.  Generalized over a Boolean separator predicate `p`. -/
def splitP (p : Char → Bool) : List Char → List (List Char)
  | [] => [[]]
  | c :: s =>
    if p c then [] :: splitP p s
    else
      match splitP p s with
      | [] => [[c]]
      | t :: ts => (c :: t) :: ts

/-- Joins fragments back with a single separator character: the inverse of
`splitP` on a single-character separator. -/
def unsplit (c : Char) : List (List Char) → List Char
  | [] => []
  | [t] => t
  | t :: ts => t ++ c :: unsplit c ts

/-- Python's `str.lstrip()`. -/
def lstrip (s : List Char) : List Char := s.dropWhile isWs

/-- Python's `str.rstrip()`. -/
def rstrip (s : List Char) : List Char := (s.reverse.dropWhile isWs).reverse

/-- Python's `str.strip()`: drop whitespace from both ends. -/
def strip (s : List Char) : List Char := lstrip (rstrip s)

/-- The whitespace-delimited words of a text (Python's `str.split()` with no
argument): the non-empty fragments obtained by cutting at whitespace. -/
def wordsOf (s : List Char) : List (List Char) :=
  (splitP isWs s).filter (fun t => !t.isEmpty)

/-- Concatenation of the word lists of a sequence of lines. -/
def concatWords (ls : List (List Char)) : List (List Char) :=
  (ls.map wordsOf).flatten

/-- The greedy word-wrap loop of `download_pdf` (app.py lines 270-280):
`current_line` accumulates words; the moment appending the next word would
reach length 80 the buffer is flushed (stripped, and only if non-blank) and
restarted from the held-over word; a non-blank leftover is flushed at the end.
The result is the list of emitted lines. -/
def wrapWords : List (List Char) → List Char → List (List Char)
  | [], current =>
    if (strip current).isEmpty then [] else [strip current]
  | w :: ws, current =>
    if (current ++ w).length < 80 then
      wrapWords ws (current ++ w ++ [' '])
    else
      (if (strip current).isEmpty then [] else [strip current]) ++ wrapWords ws (w ++ [' '])

/-- Per-line treatment of `download_pdf` (app.py lines 267-282): a line of
length at most 80 is emitted unchanged; a longer line is split on single
spaces and greedily wrapped. -/
def wrapLine (line : List Char) : List (List Char) :=
  if 80 < line.length then wrapWords (splitP (· == ' ') line) [] else [line]

/-- The paginator of `download_pdf` (app.py lines 266-282): the report text is
split on newlines and every line is wrapped; the emitted lines are collected
in document order. -/
def paginate (text : List Char) : List (List Char) :=
  ((splitP (· == '\n') text).map wrapLine).flatten

/-- Outcome of one outbound call to the generative-text provider: the call
either raises an exception carrying a message, or returns a response whose
`text` attribute is the given string (possibly empty). -/
inductive ProviderCall where
  | raised (msg : String)
  | returned (text : String)

/-- First model identifier tried by `generate_report` (app.py line 187). -/
def mFlash : String := "gemini-1.5-flash"

/-- Second model identifier tried by `generate_report` (app.py line 194). -/
def mPro : String := "gemini-1.5-pro"

/-- Third model identifier tried by `generate_report` (app.py line 201). -/
def mLegacy : String := "models/gemini-pro"

/-- The nested try/except chain of `generate_report` (app.py lines 184-206):
the three model identifiers are attempted in order, one call each; a raised
call falls through to the next identifier; the first returned response stops
the chain.  The result pairs the surviving response text (or `none` when all
three raised) with the list of identifiers actually invoked, in call order. -/
def invokeChain (provider : String → ProviderCall) : Option String × List String :=
  match provider mFlash with
  | .returned t => (some t, [mFlash])
  | .raised _ =>
    match provider mPro with
    | .returned t => (some t, [mFlash, mPro])
    | .raised _ =>
      match provider mLegacy with
      | .returned t => (some t, [mFlash, mPro, mLegacy])
      | .raised _ => (none, [mFlash, mPro, mLegacy])

/-- Python's `str.strip()` lifted to `String`. -/
def stripS (s : String) : String := String.mk (strip s.toList)

/-- The model-invocation phase of `generate_report` (app.py lines 184-214):
the fallback chain followed by the response-text extraction.  All three
identifiers raising yields the aggregated unavailability message; a response
with empty text yields the empty-response message; a response with non-empty
text yields the stripped report text.  The second component records which
model identifiers were invoked. -/
def modelPhase (provider : String → ProviderCall) : Except String String × List String :=
  match invokeChain provider with
  | (some t, calls) =>
    if t ≠ "" then (.ok (stripS t), calls)
    else (.error "Empty response from AI service", calls)
  | (none, calls) => (.error "Unable to generate report. Please try again later.", calls)

/-- HTTP-level outcome of the `generate_report` endpoint: either a JSON error
payload with a status code, or the success payload echoing report, currency
and dates (app.py lines 216-222, served with status 200). -/
inductive GenResp where
  | errResp (status : Nat) (msg : String)
  | okResp (report currency start_date end_date : String)
deriving DecidableEq

/-- HTTP status of a `generate_report` outcome. -/
def statusOfG : GenResp → Nat
  | .errResp s _ => s
  | .okResp _ _ _ _ => 200

/-- Python truthiness of an optional form field: `None` and the empty string
are falsy, every other string is truthy. -/
def truthy : Option String → Bool
  | none => false
  | some s => !(s == "")

/-- The 8-entry currency allow-list (app.py lines 30-33). -/
def CURRENCIES : List String :=
  ["USDINR", "EURUSD", "USDJPY", "USDAUD", "USDPHP", "USDZAR", "USDMXN", "USDBRL"]

/-- Numeric value of a digit string. -/
def digitsToNat (s : List Char) : Nat :=
  s.foldl (fun a c => 10 * a + (c.toNat - '0'.toNat)) 0

/-- Gregorian leap-year test, as used by `datetime`. -/
def leapYear (y : Nat) : Bool :=
  (y % 4 == 0 && !(y % 100 == 0)) || y % 400 == 0

/-- Number of days of month `m` in year `y`. -/
def daysInMonth (y m : Nat) : Nat :=
  if m == 2 then (if leapYear y then 29 else 28)
  else if m == 4 || m == 6 || m == 9 || m == 11 then 30
  else 31

/-- `datetime.strptime(s, "%Y-%m-%d")` (app.py lines 86-87): exactly three
dash-separated fields; a 4-digit year, a 1-2 digit month and a 1-2 digit day,
all decimal; the values must form a valid calendar date (year at least 1,
month 1-12, day within the month, leap years honoured).  The date is encoded
as `y * 10000 + m * 100 + d`, which orders exactly like `datetime`. -/
def parseDate (s : String) : Option Nat :=
  match splitP (· == '-') s.toList with
  | [ys, ms, ds] =>
    if ys.length = 4 ∧ ys.all Char.isDigit = true ∧
        1 ≤ ms.length ∧ ms.length ≤ 2 ∧ ms.all Char.isDigit = true ∧
        1 ≤ ds.length ∧ ds.length ≤ 2 ∧ ds.all Char.isDigit = true then
      let y := digitsToNat ys
      let m := digitsToNat ms
      let d := digitsToNat ds
      if 1 ≤ y ∧ 1 ≤ m ∧ m ≤ 12 ∧ 1 ≤ d ∧ d ≤ daysInMonth y m then
        some (y * 10000 + m * 100 + d)
      else none
    else none
  | _ => none

/-- The `generate_report` endpoint (app.py lines 59-222): the API-key guard,
the three validation stages (field presence, currency membership, date
parsing and ordering), then the model-invocation phase.  The pure prompt
construction (lines 94-182) produces no observable effect and is elided.
The second component records the model identifiers invoked; it is empty on
every path that returns before the provider is called. -/
def generate_report (apiKeyConfigured : Bool)
    (start_date end_date currency : Option String)
    (provider : String → ProviderCall) : GenResp × List String :=
  if !apiKeyConfigured then
    (.errResp 500 "Gemini API key is not configured", [])
  else if !(truthy start_date && truthy end_date && truthy currency) then
    (.errResp 400 "All fields are required", [])
  else if !(CURRENCIES.contains (currency.getD "")) then
    (.errResp 400 "Invalid currency selected", [])
  else
    match parseDate (start_date.getD ""), parseDate (end_date.getD "") with
    | some start_dt, some end_dt =>
      if end_dt ≤ start_dt then
        (.errResp 400 "End date must be after start date", [])
      else
        match modelPhase provider with
        | (.ok report_text, calls) =>
          (.okResp report_text (currency.getD "") (start_date.getD "") (end_date.getD ""), calls)
        | (.error msg, calls) => (.errResp 500 msg, calls)
    | _, _ => (.errResp 400 "Invalid date format", [])

/-- Python's `str.upper()` (ASCII letters, which is all the markers use). -/
def upperS (s : String) : String := String.mk (s.toList.map Char.toUpper)

/-- Substring test: `needle` occurs contiguously in `hay` (Python's `in`). -/
def containsSub : List Char → List Char → Bool
  | n, [] => n.isPrefixOf []
  | n, c :: t => n.isPrefixOf (c :: t) || containsSub n t

/-- The uppercased error message mentions the API-key marker. -/
def hasKeyMarker (msg : String) : Bool :=
  containsSub "API_KEY".toList (upperS msg).toList

/-- The uppercased error message mentions a quota or limit marker. -/
def hasQuotaMarker (msg : String) : Bool :=
  containsSub "QUOTA".toList (upperS msg).toList ||
    containsSub "LIMIT".toList (upperS msg).toList

/-- The outer exception handler of `generate_report` (app.py lines 224-233):
an unexpected error message is classified by scanning its uppercased text,
first for `API_KEY`, then for `QUOTA` or `LIMIT`, falling back to a generic
message; every case is a structured 500 payload. -/
def classifyError (msg : String) : GenResp :=
  if containsSub "API_KEY".toList (upperS msg).toList then
    .errResp 500 "Gemini API key is invalid or missing"
  else if containsSub "QUOTA".toList (upperS msg).toList ||
      containsSub "LIMIT".toList (upperS msg).toList then
    .errResp 500 "API quota exceeded. Please try again later."
  else
    .errResp 500 ("An error occurred: " ++ msg)

/-- Outcome of the `download_pdf` endpoint: an error payload, or a file
download carrying the attachment filename and the sequence of text cells
written into the document (title block first, then the paginated body). -/
inductive DlResult where
  | err (status : Nat) (msg : String)
  | file (filename : String) (body : List String)

/-- The `download_pdf` endpoint (app.py lines 236-312): an empty report is
rejected with 400; otherwise the document receives the two title cells and
the paginated report lines, and is served under the filename
`currency_report_<currency>_<start>_to_<end>.pdf` (line 290).  The binary
rendering by `fpdf` is external; the model keeps the emitted cell texts. -/
def download_pdf (report currency start_date end_date : String) : DlResult :=
  if report = "" then .err 400 "No report text provided"
  else
    .file ("currency_report_" ++ currency ++ "_" ++ start_date ++ "_to_" ++ end_date ++ ".pdf")
      (("Currency Report: " ++ currency) ::
        ("Period: " ++ start_date ++ " to " ++ end_date) ::
        (paginate report.toList).map (fun l => String.mk l))

/-- Attachment filename of a download outcome, when it is a file. -/
def filenameOf : DlResult → Option String
  | .file f _ => some f
  | .err _ _ => none

/-- Emitted document cells of a download outcome, when it is a file. -/
def bodyOf : DlResult → Option (List String)
  | .file _ b => some b
  | .err _ _ => none

/-- Provider on which every model identifier raises. -/
def providerAllFail : String → ProviderCall := fun _ => .raised "service overloaded"

/-- Provider on which the first identifier raises and the others return text:
used to exercise the fallback step. -/
def providerRecover : String → ProviderCall :=
  fun m => if m == mFlash then .raised "overloaded" else .returned "recovered text"

/-- Provider on which the first identifier returns an empty-text success and
the others would return text: used to exercise the empty-response path. -/
def providerEmptyFirst : String → ProviderCall :=
  fun m => if m == mFlash then .returned "" else .returned "recovered text"

/-- Provider on which every identifier returns the same text. -/
def providerOk : String → ProviderCall := fun _ => .returned "report body"

theorem isEmpty_true_iff (l : List Char) : l.isEmpty = true ↔ l = [] := by
  cases l <;> simp

theorem splitP_ne_nil (p : Char → Bool) (s : List Char) : splitP p s ≠ [] := by
  induction s with
  | nil => simp [splitP]
  | cons c s ih =>
    by_cases hc : p c = true
    · simp [splitP, hc]
    · have hc' : p c = false := by simpa using hc
      rcases h : splitP p s with _ | ⟨t, ts⟩
      · exact absurd h ih
      · simp [splitP, hc', h]

theorem splitP_cons_pos (p : Char → Bool) {c : Char} (hc : p c = true) (s : List Char) :
    splitP p (c :: s) = [] :: splitP p s := by
  simp [splitP, hc]

theorem splitP_cons_neg (p : Char → Bool) {c : Char} (hc : p c = false) {s t : List Char}
    {ts : List (List Char)} (h : splitP p s = t :: ts) :
    splitP p (c :: s) = (c :: t) :: ts := by
  simp [splitP, hc, h]

theorem splitP_append_sep (p : Char → Bool) {c : Char} (hc : p c = true)
    (a b : List Char) : splitP p (a ++ c :: b) = splitP p a ++ splitP p b := by
  induction a with
  | nil => rw [List.nil_append, splitP_cons_pos p hc]; rfl
  | cons d a ih =>
    by_cases hd : p d = true
    · simp [List.cons_append, splitP_cons_pos p hd, ih]
    · have hd' : p d = false := by simpa using hd
      rcases h1 : splitP p a with _ | ⟨t, ts⟩
      · exact absurd h1 (splitP_ne_nil p a)
      · have h2 : splitP p (a ++ c :: b) = t :: (ts ++ splitP p b) := by
          rw [ih, h1]; rfl
        rw [List.cons_append, splitP_cons_neg p hd' h2, splitP_cons_neg p hd' h1]
        rfl

theorem splitP_no_sep (p : Char → Bool) (s : List Char) (h : ∀ x ∈ s, p x = false) :
    splitP p s = [s] := by
  induction s with
  | nil => rfl
  | cons c s ih =>
    have hc : p c = false := h c (by simp)
    have ih' := ih (fun x hx => h x (by simp [hx]))
    rw [splitP_cons_neg p hc ih']

theorem unsplit_cons_cons (c : Char) (t t2 : List Char) (ts : List (List Char)) :
    unsplit c (t :: t2 :: ts) = t ++ c :: unsplit c (t2 :: ts) := rfl

theorem unsplit_head_cons (c x : Char) (t : List Char) (ts : List (List Char)) :
    unsplit c ((x :: t) :: ts) = x :: unsplit c (t :: ts) := by
  cases ts <;> rfl

theorem unsplit_splitP (c : Char) (s : List Char) :
    unsplit c (splitP (· == c) s) = s := by
  induction s with
  | nil => rfl
  | cons d s ih =>
    by_cases hd : (d == c) = true
    · have hdc : d = c := by simpa using hd
      rw [splitP_cons_pos (p := (· == c)) (c := d) hd]
      rcases h1 : splitP (· == c) s with _ | ⟨t, ts⟩
      · exact absurd h1 (splitP_ne_nil _ s)
      · rw [h1] at ih
        rw [unsplit_cons_cons, List.nil_append, ih, hdc]
    · have hd' : (d == c) = false := by simpa using hd
      rcases h1 : splitP (· == c) s with _ | ⟨t, ts⟩
      · exact absurd h1 (splitP_ne_nil _ s)
      · rw [h1] at ih
        rw [splitP_cons_neg (p := (· == c)) (c := d) hd' h1, unsplit_head_cons, ih]

theorem splitP_unsplit (c : Char) (ts : List (List Char)) (hne : ts ≠ [])
    (h : ∀ t ∈ ts, ∀ x ∈ t, (x == c) = false) :
    splitP (· == c) (unsplit c ts) = ts := by
  induction ts with
  | nil => exact absurd rfl hne
  | cons t ts ih =>
    cases ts with
    | nil => simpa [unsplit] using splitP_no_sep _ t (h t (by simp))
    | cons t2 ts2 =>
      rw [unsplit_cons_cons,
        splitP_append_sep (p := (· == c)) (c := c) (by simp) t (unsplit c (t2 :: ts2)),
        splitP_no_sep _ t (h t (by simp)),
        ih (by simp) (fun u hu x hx => h u (by simp [hu]) x hx)]
      rfl

theorem length_unsplit (c : Char) (ts : List (List Char)) (hne : ts ≠ []) :
    (unsplit c ts).length = (ts.map List.length).sum + (ts.length - 1) := by
  induction ts with
  | nil => exact absurd rfl hne
  | cons t ts ih =>
    cases ts with
    | nil => simp [unsplit]
    | cons t2 ts2 =>
      have h2 := ih (by simp)
      rw [unsplit_cons_cons]
      simp only [List.length_append, List.length_cons, h2, List.map_cons, List.sum_cons] at *
      omega

theorem splitP_length_sum (p : Char → Bool) (s : List Char) :
    ((splitP p s).map List.length).sum + ((splitP p s).length - 1) = s.length := by
  induction s with
  | nil => simp [splitP]
  | cons c s ih =>
    rcases h1 : splitP p s with _ | ⟨t, ts⟩
    · exact absurd h1 (splitP_ne_nil p s)
    · rw [h1] at ih
      by_cases hc : p c = true
      · rw [splitP_cons_pos p hc, h1]
        simp only [List.map_cons, List.sum_cons, List.length_cons, List.length_nil,
          List.map_nil, List.sum_nil] at ih ⊢
        omega
      · have hc' : p c = false := by simpa using hc
        rw [splitP_cons_neg p hc' h1]
        simp only [List.map_cons, List.sum_cons, List.length_cons, List.length_nil,
          List.map_nil, List.sum_nil] at ih ⊢
        omega

theorem wordsOf_nil : wordsOf [] = [] := rfl

theorem wordsOf_cons_ws {c : Char} (hc : isWs c = true) (s : List Char) :
    wordsOf (c :: s) = wordsOf s := by
  unfold wordsOf
  rw [splitP_cons_pos _ hc]
  simp

theorem wordsOf_append_sep {c : Char} (hc : isWs c = true) (a b : List Char) :
    wordsOf (a ++ c :: b) = wordsOf a ++ wordsOf b := by
  unfold wordsOf
  rw [splitP_append_sep _ hc, List.filter_append]

theorem wordsOf_append_ws {c : Char} (hc : isWs c = true) (s : List Char) :
    wordsOf (s ++ [c]) = wordsOf s := by
  have h := wordsOf_append_sep hc s []
  simpa [wordsOf_nil] using h

theorem wordsOf_no_ws (s : List Char) (hne : s ≠ []) (h : ∀ x ∈ s, isWs x = false) :
    wordsOf s = [s] := by
  have hE : s.isEmpty = false := by cases s with
    | nil => exact absurd rfl hne
    | cons a l => rfl
  unfold wordsOf
  rw [splitP_no_sep _ s h]
  simp [List.filter_cons, hE]

theorem wordsOf_lstrip (s : List Char) : wordsOf (lstrip s) = wordsOf s := by
  unfold lstrip
  induction s with
  | nil => rfl
  | cons c s ih =>
    by_cases hc : isWs c = true
    · rw [List.dropWhile_cons_of_pos hc, ih, wordsOf_cons_ws hc]
    · rw [List.dropWhile_cons_of_neg (by simpa using hc)]

theorem rstrip_append_ws {c : Char} (hc : isWs c = true) (s : List Char) :
    rstrip (s ++ [c]) = rstrip s := by
  unfold rstrip
  simp [List.dropWhile_cons, hc]

theorem rstrip_append_not_ws {c : Char} (hc : isWs c = false) (s : List Char) :
    rstrip (s ++ [c]) = s ++ [c] := by
  unfold rstrip
  simp [List.dropWhile_cons, hc]

theorem wordsOf_rstrip (s : List Char) : wordsOf (rstrip s) = wordsOf s := by
  induction s using List.reverseRecOn with
  | nil => rfl
  | append_singleton s c ih =>
    by_cases hc : isWs c = true
    · rw [rstrip_append_ws hc, ih, wordsOf_append_ws hc]
    · rw [rstrip_append_not_ws (by simpa using hc)]

theorem wordsOf_strip (s : List Char) : wordsOf (strip s) = wordsOf s := by
  unfold strip
  rw [wordsOf_lstrip, wordsOf_rstrip]

theorem wordsOf_eq_nil_of_strip (s : List Char) (h : strip s = []) : wordsOf s = [] := by
  rw [← wordsOf_strip s, h, wordsOf_nil]

theorem length_lstrip_le (s : List Char) : (lstrip s).length ≤ s.length :=
  (List.dropWhile_sublist isWs).length_le

theorem length_rstrip_le (s : List Char) : (rstrip s).length ≤ s.length := by
  unfold rstrip
  simpa using (List.dropWhile_sublist (l := s.reverse) isWs).length_le

theorem length_strip_le (s : List Char) : (strip s).length ≤ s.length :=
  le_trans (length_lstrip_le _) (length_rstrip_le _)

theorem length_strip_append_ws_le {c : Char} (hc : isWs c = true) (s : List Char) :
    (strip (s ++ [c])).length ≤ s.length := by
  unfold strip
  rw [rstrip_append_ws hc]
  exact le_trans (length_lstrip_le _) (length_rstrip_le _)

theorem concatWords_nil : concatWords [] = [] := rfl

theorem concatWords_cons (l : List Char) (ls : List (List Char)) :
    concatWords (l :: ls) = wordsOf l ++ concatWords ls := by
  simp [concatWords]

theorem concatWords_append (a b : List (List Char)) :
    concatWords (a ++ b) = concatWords a ++ concatWords b := by
  simp [concatWords]

theorem concatWords_flush (cur : List Char) :
    concatWords (if (strip cur).isEmpty then [] else [strip cur]) = wordsOf cur := by
  by_cases h : (strip cur).isEmpty = true
  · rw [if_pos h, concatWords_nil]
    exact (wordsOf_eq_nil_of_strip cur ((isEmpty_true_iff _).mp h)).symm
  · rw [if_neg h, concatWords_cons, concatWords_nil, List.append_nil, wordsOf_strip]

theorem wordsOf_append_word (cur w : List Char)
    (hc : cur = [] ∨ ∃ c0, cur = c0 ++ [' ']) :
    wordsOf (cur ++ w ++ [' ']) = wordsOf cur ++ wordsOf w := by
  have hsp : isWs ' ' = true := by decide
  rcases hc with h | ⟨c0, h⟩
  · subst h
    simp [wordsOf_append_ws hsp, wordsOf_nil]
  · subst h
    have hshape : ((c0 ++ [' ']) ++ w) ++ [' '] = c0 ++ ' ' :: (w ++ [' ']) := by simp
    calc wordsOf (((c0 ++ [' ']) ++ w) ++ [' '])
        = wordsOf (c0 ++ ' ' :: (w ++ [' '])) := by rw [hshape]
      _ = wordsOf c0 ++ wordsOf (w ++ [' ']) := wordsOf_append_sep hsp _ _
      _ = wordsOf c0 ++ wordsOf w := by rw [wordsOf_append_ws hsp]
      _ = wordsOf (c0 ++ [' ']) ++ wordsOf w := by rw [wordsOf_append_ws hsp]

theorem wrapWords_words (ws : List (List Char)) : ∀ cur : List Char,
    (cur = [] ∨ ∃ c0, cur = c0 ++ [' ']) →
    concatWords (wrapWords ws cur) = wordsOf cur ++ concatWords ws := by
  induction ws with
  | nil =>
    intro cur _
    rw [show wrapWords [] cur = (if (strip cur).isEmpty then [] else [strip cur]) from rfl,
      concatWords_flush, concatWords_nil, List.append_nil]
  | cons w ws ih =>
    intro cur hc
    by_cases hlt : (cur ++ w).length < 80
    · rw [show wrapWords (w :: ws) cur = wrapWords ws (cur ++ w ++ [' ']) from by
        simp only [wrapWords]; rw [if_pos hlt]]
      rw [ih _ (Or.inr ⟨cur ++ w, rfl⟩), wordsOf_append_word cur w hc, concatWords_cons,
        List.append_assoc]
    · rw [show wrapWords (w :: ws) cur =
          (if (strip cur).isEmpty then [] else [strip cur]) ++ wrapWords ws (w ++ [' ']) from by
        simp only [wrapWords]; rw [if_neg hlt]]
      rw [concatWords_append, concatWords_flush, ih _ (Or.inr ⟨w, rfl⟩),
        wordsOf_append_ws (by decide), concatWords_cons]

theorem wrapWords_length_le (ws : List (List Char)) : ∀ cur : List Char,
    (∀ w ∈ ws, w.length ≤ 80) → (strip cur).length ≤ 80 →
    ∀ l ∈ wrapWords ws cur, l.length ≤ 80 := by
  induction ws with
  | nil =>
    intro cur _ hcur l hl
    rw [show wrapWords [] cur = (if (strip cur).isEmpty then [] else [strip cur]) from rfl] at hl
    by_cases h : (strip cur).isEmpty = true
    · rw [if_pos h] at hl; simp at hl
    · rw [if_neg h] at hl
      simp at hl
      rw [hl]; exact hcur
  | cons w ws ih =>
    intro cur hws hcur l hl
    by_cases hlt : (cur ++ w).length < 80
    · rw [show wrapWords (w :: ws) cur = wrapWords ws (cur ++ w ++ [' ']) from by
        simp only [wrapWords]; rw [if_pos hlt]] at hl
      refine ih _ (fun u hu => hws u (by simp [hu])) ?_ l hl
      have h1 := length_strip_append_ws_le (show isWs ' ' = true by decide) (cur ++ w)
      omega
    · rw [show wrapWords (w :: ws) cur =
          (if (strip cur).isEmpty then [] else [strip cur]) ++ wrapWords ws (w ++ [' ']) from by
        simp only [wrapWords]; rw [if_neg hlt]] at hl
      rw [List.mem_append] at hl
      rcases hl with hl | hl
      · by_cases h : (strip cur).isEmpty = true
        · rw [if_pos h] at hl; simp at hl
        · rw [if_neg h] at hl
          simp at hl
          rw [hl]; exact hcur
      · refine ih _ (fun u hu => hws u (by simp [hu])) ?_ l hl
        have h1 := length_strip_append_ws_le (show isWs ' ' = true by decide) w
        have h2 := hws w (by simp)
        omega

theorem sum_map_length_filter (L : List (List Char)) :
    ((L.filter (fun t => !t.isEmpty)).map List.length).sum = (L.map List.length).sum := by
  induction L with
  | nil => rfl
  | cons t L ih =>
    by_cases h : t.isEmpty = true
    · have ht : t = [] := (isEmpty_true_iff t).mp h
      simp [List.filter_cons, h, ih, ht]
    · simp [List.filter_cons, h, ih]

theorem words_length_bound (s : List Char) (h : wordsOf s ≠ []) :
    ((wordsOf s).map List.length).sum + ((wordsOf s).length - 1) ≤ s.length := by
  have hb := splitP_length_sum isWs s
  have hsum : ((wordsOf s).map List.length).sum = ((splitP isWs s).map List.length).sum := by
    unfold wordsOf
    exact sum_map_length_filter _
  have hlen : (wordsOf s).length ≤ (splitP isWs s).length := by
    unfold wordsOf
    exact List.length_filter_le _ _
  have h1 : 1 ≤ (wordsOf s).length := by
    rcases hw : wordsOf s with _ | ⟨t, ts⟩
    · exact absurd hw h
    · simp
  omega

theorem count_le_sum_len (L : List (List Char)) (h : ∀ w ∈ L, w ≠ []) :
    L.length ≤ (L.map List.length).sum := by
  induction L with
  | nil => simp
  | cons t L ih =>
    have h1 : 1 ≤ t.length := by
      rcases ht : t with _ | ⟨a, l⟩
      · exact absurd ht (h t (by simp))
      · simp
    have h2 := ih (fun u hu => h u (by simp [hu]))
    simp only [List.length_cons, List.map_cons, List.sum_cons]
    omega

theorem token_length_le (ws : List (List Char)) (h2 : 2 ≤ ws.length)
    (hne : ∀ w ∈ ws, w ≠ []) (hlen : (unsplit ' ' ws).length = 81) :
    ∀ w ∈ ws, w.length ≤ 79 := by
  intro w hw
  obtain ⟨pre, post, rfl⟩ := List.append_of_mem hw
  have hLu := length_unsplit ' ' (pre ++ w :: post) (by simp)
  have hpre : pre.length ≤ (pre.map List.length).sum :=
    count_le_sum_len pre (fun u hu => hne u (by simp [hu]))
  have hpost : post.length ≤ (post.map List.length).sum :=
    count_le_sum_len post (fun u hu => hne u (by simp [hu]))
  rw [hlen] at hLu
  simp only [List.map_append, List.sum_append, List.length_append, List.map_cons,
    List.sum_cons, List.length_cons] at hLu h2
  omega

theorem concatWords_splitP {c : Char} (hc : isWs c = true) (s : List Char) :
    concatWords (splitP (· == c) s) = wordsOf s := by
  have key : ∀ ts : List (List Char), ts ≠ [] → wordsOf (unsplit c ts) = concatWords ts := by
    intro ts
    induction ts with
    | nil => intro h; exact absurd rfl h
    | cons t ts ih =>
      intro _
      cases ts with
      | nil => simp [unsplit, concatWords_cons, concatWords_nil]
      | cons t2 ts2 =>
        rw [unsplit_cons_cons, wordsOf_append_sep hc, ih (by simp)]
        simp [concatWords_cons]
  have h2 := key (splitP (· == c) s) (splitP_ne_nil _ s)
  rw [unsplit_splitP c s] at h2
  exact h2.symm

theorem concatWords_of_plain_words (ws : List (List Char)) (hne : ∀ w ∈ ws, w ≠ [])
    (hnw : ∀ w ∈ ws, ∀ x ∈ w, isWs x = false) : concatWords ws = ws := by
  induction ws with
  | nil => rfl
  | cons w ws ih =>
    rw [concatWords_cons, wordsOf_no_ws w (hne w (by simp)) (hnw w (by simp)),
      ih (fun u hu => hne u (by simp [hu])) (fun u hu => hnw u (by simp [hu]))]
    rfl

/-- Claim C1 (amended): every line emitted by the paginator is at most 80
characters long, provided no space-delimited word of any input line exceeds
80 characters.  The unconditional claim is false: a single word longer than
80 characters is emitted unsplit as an over-long output line, see
`c1_width_counterexample`. -/
theorem c1_paginator_width (text : List Char)
    (h : ∀ line ∈ splitP (· == '\n') text, ∀ w ∈ splitP (· == ' ') line, w.length ≤ 80) :
    ∀ l ∈ paginate text, l.length ≤ 80 := by
  intro l hl
  simp only [paginate, List.mem_flatten, List.mem_map] at hl
  obtain ⟨L, ⟨line, hline, rfl⟩, hlL⟩ := hl
  by_cases h80 : 80 < line.length
  · simp only [wrapLine] at hlL
    rw [if_pos h80] at hlL
    exact wrapWords_length_le _ [] (h line hline) (by decide) l hlL
  · simp only [wrapLine] at hlL
    rw [if_neg h80] at hlL
    simp at hlL
    subst hlL
    omega

/-- Witness for `c1_paginator_width`: a 101-character line of two 50-character
words is wrapped, and the first emitted line is within the width. -/
theorem c1_paginator_width_witness :
    List.replicate 50 'a' ∈ paginate (List.replicate 50 'a' ++ [' '] ++ List.replicate 50 'b') ∧
      (List.replicate 50 'a').length ≤ 80 :=
  ⟨by decide,
    c1_paginator_width (List.replicate 50 'a' ++ [' '] ++ List.replicate 50 'b') (by decide)
      (List.replicate 50 'a') (by decide)⟩

/-- Counterexample to claim C1 as stated: the report text consisting of one
81-character word is paginated into a single output line of 81 characters,
which exceeds the fixed width W = 80. -/
theorem c1_width_counterexample :
    paginate (List.replicate 81 'a') = [List.replicate 81 'a'] ∧
      80 < (List.replicate 81 'a').length :=
  ⟨by decide, by decide⟩

/-- Claim C3 (amended): a line of exactly 80 characters is emitted unchanged;
an empty input line round-trips to an empty output line; and a line of 81
characters made of at least two non-empty whitespace-free words separated by
single spaces is split into at least two output lines, each of length at most
80.  The unconditional 81-character part of the claim is false: a single
81-character word stays one over-long line, see `c3_split_counterexample`. -/
theorem c3_line_edge_cases :
    (∀ line : List Char, line.length = 80 → wrapLine line = [line]) ∧
    wrapLine [] = [[]] ∧
    (∀ ws : List (List Char), 2 ≤ ws.length → (∀ w ∈ ws, w ≠ []) →
      (∀ w ∈ ws, ∀ x ∈ w, isWs x = false) →
      (unsplit ' ' ws).length = 81 →
      2 ≤ (wrapLine (unsplit ' ' ws)).length ∧
        ∀ l ∈ wrapLine (unsplit ' ' ws), l.length ≤ 80) := by
  refine ⟨?_, rfl, ?_⟩
  · intro line h80
    simp only [wrapLine]
    rw [if_neg (by omega)]
  · intro ws h2 hne hnw hlen
    have hwsne : ws ≠ [] := by
      intro h
      rw [h] at h2
      simp at h2
    have hsplit : splitP (· == ' ') (unsplit ' ' ws) = ws := by
      refine splitP_unsplit ' ' ws hwsne ?_
      intro t ht x hx
      have hxw := hnw t ht x hx
      cases hxe : (x == ' ') with
      | false => rfl
      | true =>
        exfalso
        have hx' : x = ' ' := by simpa using hxe
        rw [hx'] at hxw
        exact absurd hxw (by decide)
    have h81 : 80 < (unsplit ' ' ws).length := by omega
    have hwrap : wrapLine (unsplit ' ' ws) = wrapWords ws [] := by
      simp only [wrapLine]
      rw [if_pos h81, hsplit]
    have htok := token_length_le ws h2 hne hlen
    have hbound : ∀ l ∈ wrapLine (unsplit ' ' ws), l.length ≤ 80 := by
      rw [hwrap]
      exact wrapWords_length_le ws [] (fun w hw => by have := htok w hw; omega) (by decide)
    refine ⟨?_, hbound⟩
    have hwords : concatWords (wrapWords ws []) = ws := by
      rw [wrapWords_words ws [] (Or.inl rfl), wordsOf_nil, List.nil_append]
      exact concatWords_of_plain_words ws hne hnw
    rw [hwrap]
    rcases hout : wrapWords ws [] with _ | ⟨l1, _ | ⟨l2, rest2⟩⟩
    · exfalso
      rw [hout, concatWords_nil] at hwords
      rw [← hwords] at h2
      simp at h2
    · exfalso
      rw [hout, concatWords_cons, concatWords_nil, List.append_nil] at hwords
      have hne2 : wordsOf l1 ≠ [] := by
        rw [hwords]
        exact hwsne
      have hb := words_length_bound l1 hne2
      rw [hwords] at hb
      have hLu := length_unsplit ' ' ws hwsne
      have hl1 : l1.length ≤ 80 := hbound l1 (by rw [hwrap, hout]; simp)
      omega
    · simp

/-- Witness for `c3_line_edge_cases`: an 80-character line is unchanged, and
the 81-character line `"a"*40 ++ " " ++ "b"*40` is split into two lines. -/
theorem c3_line_edge_cases_witness :
    wrapLine (List.replicate 80 'c') = [List.replicate 80 'c'] ∧
      2 ≤ (wrapLine (unsplit ' ' [List.replicate 40 'a', List.replicate 40 'b'])).length :=
  ⟨c3_line_edge_cases.1 _ (by decide),
    (c3_line_edge_cases.2.2 [List.replicate 40 'a', List.replicate 40 'b']
      (by decide) (by decide) (by decide) (by decide)).1⟩

/-- Counterexample to claim C3 as stated: the 81-character line consisting of
a single word is emitted as one output line (of length 81), not split into at
least two output lines of length at most 80. -/
theorem c3_split_counterexample :
    (List.replicate 81 'b').length = 81 ∧
      wrapLine (List.replicate 81 'b') = [List.replicate 81 'b'] :=
  ⟨by decide, by decide⟩

/-- Claim C5 (confirmed): concatenating the whitespace-delimited words of all
output lines of the paginator, in emission order, yields exactly the
whitespace-delimited words of the input text, with no word dropped or
duplicated. -/
theorem c5_words_roundtrip (text : List Char) :
    concatWords (paginate text) = wordsOf text := by
  have hline : ∀ line : List Char, concatWords (wrapLine line) = wordsOf line := by
    intro line
    by_cases h80 : 80 < line.length
    · simp only [wrapLine]
      rw [if_pos h80, wrapWords_words _ [] (Or.inl rfl), wordsOf_nil, List.nil_append]
      exact concatWords_splitP (by decide) line
    · simp only [wrapLine]
      rw [if_neg h80, concatWords_cons, concatWords_nil, List.append_nil]
  have hLS : ∀ LS : List (List Char),
      concatWords ((LS.map wrapLine).flatten) = concatWords LS := by
    intro LS
    induction LS with
    | nil => rfl
    | cons line LS ih =>
      rw [List.map_cons, List.flatten_cons, concatWords_append, hline, ih, concatWords_cons]
  rw [show paginate text = ((splitP (· == '\n') text).map wrapLine).flatten from rfl, hLS]
  exact concatWords_splitP (by decide) text

/-- Claim C2 (amended): a successful provider response with empty text does
NOT advance the fallback: at whichever position it occurs, the invoker stops
and returns the empty-response error immediately, without trying the next
model identifier.  Only raised calls advance the fallback.  The claim as
stated (empty success behaves like an exception and the next identifier is
tried) is refuted by `c2_empty_counterexample`. -/
theorem c2_empty_response_stops (provider : String → ProviderCall) :
    (∀ t, provider mFlash = .returned t → t = "" →
      modelPhase provider = (.error "Empty response from AI service", [mFlash])) ∧
    (∀ e t, provider mFlash = .raised e → provider mPro = .returned t → t = "" →
      modelPhase provider = (.error "Empty response from AI service", [mFlash, mPro])) ∧
    (∀ e1 e2 t, provider mFlash = .raised e1 → provider mPro = .raised e2 →
      provider mLegacy = .returned t → t = "" →
      modelPhase provider =
        (.error "Empty response from AI service", [mFlash, mPro, mLegacy])) := by
  refine ⟨?_, ?_, ?_⟩
  · intro t h1 ht
    subst ht
    simp [modelPhase, invokeChain, h1]
  · intro e t h1 h2 ht
    subst ht
    simp [modelPhase, invokeChain, h1, h2]
  · intro e1 e2 t h1 h2 h3 ht
    subst ht
    simp [modelPhase, invokeChain, h1, h2, h3]

/-- Witness for `c2_empty_response_stops`: on the provider whose first model
returns empty text, the invoker reports the empty-response error after
calling only the first identifier. -/
theorem c2_empty_response_stops_witness :
    modelPhase providerEmptyFirst = (.error "Empty response from AI service", [mFlash]) :=
  (c2_empty_response_stops providerEmptyFirst).1 "" rfl rfl

/-- Counterexample to claim C2 as stated: the first identifier returns an
empty-text success and the second identifier would return non-empty text,
yet the invoker returns an immediate failure after calling only the first
identifier — the second is never tried. -/
theorem c2_empty_counterexample :
    providerEmptyFirst mFlash = .returned "" ∧
      providerEmptyFirst mPro = .returned "recovered text" ∧
      modelPhase providerEmptyFirst = (.error "Empty response from AI service", [mFlash]) :=
  ⟨rfl, rfl, rfl⟩

/-- Claim C4 (confirmed): the Model Invoker tries the identifiers in the
fixed order fast/capable/legacy with one attempt each (the call list is
always one of the three order-respecting prefixes); if the first raises and
the second returns non-empty text, the result is the second's (stripped)
output with the third never invoked; and the aggregated unavailability error
— whose message is non-empty — is returned exactly when all three
identifiers raised. -/
theorem c4_fallback_order (provider : String → ProviderCall) :
    ((modelPhase provider).2 = [mFlash] ∨ (modelPhase provider).2 = [mFlash, mPro] ∨
      (modelPhase provider).2 = [mFlash, mPro, mLegacy]) ∧
    (∀ e t, provider mFlash = .raised e → provider mPro = .returned t → t ≠ "" →
      modelPhase provider = (.ok (stripS t), [mFlash, mPro])) ∧
    (((modelPhase provider).1 =
        .error "Unable to generate report. Please try again later.") ↔
      (∃ e1 e2 e3, provider mFlash = .raised e1 ∧ provider mPro = .raised e2 ∧
        provider mLegacy = .raised e3)) ∧
    (∀ msg, (modelPhase provider).1 = .error msg → msg ≠ "") := by
  rcases h1 : provider mFlash with e1 | t1
  · rcases h2 : provider mPro with e2 | t2
    · rcases h3 : provider mLegacy with e3 | t3
      · have hmp : modelPhase provider =
            (.error "Unable to generate report. Please try again later.",
              [mFlash, mPro, mLegacy]) := by
          simp [modelPhase, invokeChain, h1, h2, h3]
        refine ⟨by simp [hmp], ?_, ?_, ?_⟩
        · intro e t _ hm2 _
          simp at hm2
        · exact ⟨fun _ => ⟨e1, e2, e3, rfl, rfl, rfl⟩, fun _ => by rw [hmp]⟩
        · intro msg h
          rw [hmp] at h
          simp at h
          subst h
          decide
      · by_cases ht3 : t3 = ""
        · subst ht3
          have hmp : modelPhase provider =
              (.error "Empty response from AI service", [mFlash, mPro, mLegacy]) := by
            simp [modelPhase, invokeChain, h1, h2, h3]
          refine ⟨by simp [hmp], ?_, ?_, ?_⟩
          · intro e t _ hm2 _
            simp at hm2
          · constructor
            · intro h
              rw [hmp] at h
              injection h with h'
              exact absurd h' (by decide)
            · rintro ⟨e1', e2', e3', _, _, H3⟩
              simp at H3
          · intro msg h
            rw [hmp] at h
            simp at h
            subst h
            decide
        · have hmp : modelPhase provider =
              (.ok (stripS t3), [mFlash, mPro, mLegacy]) := by
            simp [modelPhase, invokeChain, h1, h2, h3, ht3]
          refine ⟨by simp [hmp], ?_, ?_, ?_⟩
          · intro e t _ hm2 _
            simp at hm2
          · constructor
            · intro h
              rw [hmp] at h
              simp at h
            · rintro ⟨e1', e2', e3', _, _, H3⟩
              simp at H3
          · intro msg h
            rw [hmp] at h
            simp at h
    · by_cases ht2 : t2 = ""
      · subst ht2
        have hmp : modelPhase provider =
            (.error "Empty response from AI service", [mFlash, mPro]) := by
          simp [modelPhase, invokeChain, h1, h2]
        refine ⟨by simp [hmp], ?_, ?_, ?_⟩
        · intro e t _ hm2 hne
          injection hm2 with ht
          exact absurd ht.symm hne
        · constructor
          · intro h
            rw [hmp] at h
            injection h with h'
            exact absurd h' (by decide)
          · rintro ⟨e1', e2', e3', _, H2, _⟩
            simp at H2
        · intro msg h
          rw [hmp] at h
          simp at h
          subst h
          decide
      · have hmp : modelPhase provider = (.ok (stripS t2), [mFlash, mPro]) := by
          simp [modelPhase, invokeChain, h1, h2, ht2]
        refine ⟨by simp [hmp], ?_, ?_, ?_⟩
        · intro e t _ hm2 _
          injection hm2 with ht
          subst ht
          exact hmp
        · constructor
          · intro h
            rw [hmp] at h
            simp at h
          · rintro ⟨e1', e2', e3', _, H2, _⟩
            simp at H2
        · intro msg h
          rw [hmp] at h
          simp at h
  · by_cases ht1 : t1 = ""
    · subst ht1
      have hmp : modelPhase provider =
          (.error "Empty response from AI service", [mFlash]) := by
        simp [modelPhase, invokeChain, h1]
      refine ⟨by simp [hmp], ?_, ?_, ?_⟩
      · intro e t hm1 _ _
        simp at hm1
      · constructor
        · intro h
          rw [hmp] at h
          injection h with h'
          exact absurd h' (by decide)
        · rintro ⟨e1', e2', e3', H1, _, _⟩
          simp at H1
      · intro msg h
        rw [hmp] at h
        simp at h
        subst h
        decide
    · have hmp : modelPhase provider = (.ok (stripS t1), [mFlash]) := by
        simp [modelPhase, invokeChain, h1, ht1]
      refine ⟨by simp [hmp], ?_, ?_, ?_⟩
      · intro e t hm1 _ _
        simp at hm1
      · constructor
        · intro h
          rw [hmp] at h
          simp at h
        · rintro ⟨e1', e2', e3', H1, _, _⟩
          simp at H1
      · intro msg h
        rw [hmp] at h
        simp at h

/-- Witness for `c4_fallback_order`: on the provider whose first model raises
and whose second returns text, the invoker returns the second model's output
having called exactly the first two identifiers. -/
theorem c4_fallback_order_witness :
    modelPhase providerRecover = (.ok "recovered text", [mFlash, mPro]) :=
  (c4_fallback_order providerRecover).2.1 "overloaded" "recovered text" rfl rfl (by decide)

/-- Claim C6 (confirmed): once the endpoint is past the API-key guard, the
validator checks presence of all three fields, then currency membership in
the 8-entry allow-list, then date parsing, then date ordering, in that fixed
order; the first failing check determines the single 400 error returned, and
no model call is made on any validation failure (the call list is empty). -/
theorem c6_validation_order (start_date end_date currency : Option String)
    (provider : String → ProviderCall) :
    ((truthy start_date && truthy end_date && truthy currency) = false →
      generate_report true start_date end_date currency provider =
        (.errResp 400 "All fields are required", [])) ∧
    ((truthy start_date && truthy end_date && truthy currency) = true →
      CURRENCIES.contains (currency.getD "") = false →
      generate_report true start_date end_date currency provider =
        (.errResp 400 "Invalid currency selected", [])) ∧
    ((truthy start_date && truthy end_date && truthy currency) = true →
      CURRENCIES.contains (currency.getD "") = true →
      (parseDate (start_date.getD "") = none ∨ parseDate (end_date.getD "") = none) →
      generate_report true start_date end_date currency provider =
        (.errResp 400 "Invalid date format", [])) ∧
    (∀ d1 d2, (truthy start_date && truthy end_date && truthy currency) = true →
      CURRENCIES.contains (currency.getD "") = true →
      parseDate (start_date.getD "") = some d1 → parseDate (end_date.getD "") = some d2 →
      d2 ≤ d1 →
      generate_report true start_date end_date currency provider =
        (.errResp 400 "End date must be after start date", [])) := by
  refine ⟨?_, ?_, ?_, ?_⟩
  · intro h1
    simp [generate_report, h1]
  · intro h1 h2
    have h2m : ¬ (currency.getD "" ∈ CURRENCIES) := by simpa using h2
    simp [generate_report, h1, h2m]
  · intro h1 h2 h3
    have h2m : currency.getD "" ∈ CURRENCIES := by simpa using h2
    rcases hsd : parseDate (start_date.getD "") with _ | d1
    · simp [generate_report, h1, h2m, hsd]
    · rcases h3 with h3 | h3
      · rw [hsd] at h3
        simp at h3
      · simp [generate_report, h1, h2m, hsd, h3]
  · intro d1 d2 h1 h2 hsd hed hle
    have h2m : currency.getD "" ∈ CURRENCIES := by simpa using h2
    simp [generate_report, h1, h2m, hsd, hed, hle]

/-- Witness for `c6_validation_order`: valid fields but a reversed date range
produce exactly the date-order error, with no model call. -/
theorem c6_validation_order_witness :
    generate_report true (some "2025-01-02") (some "2025-01-01") (some "USDINR") providerOk =
      (.errResp 400 "End date must be after start date", []) :=
  (c6_validation_order (some "2025-01-02") (some "2025-01-01") (some "USDINR")
      providerOk).2.2.2 20250102 20250101 (by decide) (by decide) (by decide) (by decide)
    (by decide)

/-- Claim C7 (confirmed): whenever the start date parses, the end date
parses, and start ≥ end, the submit-report endpoint returns a 400 validation
error — whatever the currency field holds — and the provider is never
called. -/
theorem c7_reversed_dates_rejected (sd ed : String) (currency : Option String)
    (provider : String → ProviderCall) (d1 d2 : Nat)
    (hsd : parseDate sd = some d1) (hed : parseDate ed = some d2) (hle : d2 ≤ d1) :
    statusOfG (generate_report true (some sd) (some ed) currency provider).1 = 400 ∧
      (generate_report true (some sd) (some ed) currency provider).2 = [] := by
  have hsd' : sd ≠ "" := by
    intro h
    rw [h, show parseDate "" = none from rfl] at hsd
    cases hsd
  have hed' : ed ≠ "" := by
    intro h
    rw [h, show parseDate "" = none from rfl] at hed
    cases hed
  by_cases h1 : (truthy (some sd) && truthy (some ed) && truthy currency) = true
  · by_cases h2 : CURRENCIES.contains (currency.getD "") = true
    · have h2m : currency.getD "" ∈ CURRENCIES := by simpa using h2
      have hgen : generate_report true (some sd) (some ed) currency provider =
          (.errResp 400 "End date must be after start date", []) := by
        simp [generate_report, h1, h2m, hsd, hed, hle]
      rw [hgen]
      exact ⟨rfl, rfl⟩
    · have h2m : ¬ (currency.getD "" ∈ CURRENCIES) := by simpa using h2
      have hgen : generate_report true (some sd) (some ed) currency provider =
          (.errResp 400 "Invalid currency selected", []) := by
        simp [generate_report, h1, h2m]
      rw [hgen]
      exact ⟨rfl, rfl⟩
  · have h1' : (truthy (some sd) && truthy (some ed) && truthy currency) = false := by
      simpa using h1
    have hgen : generate_report true (some sd) (some ed) currency provider =
        (.errResp 400 "All fields are required", []) := by
      simp [generate_report, h1']
    rw [hgen]
    exact ⟨rfl, rfl⟩

/-- Witness for `c7_reversed_dates_rejected`: a reversed range with a
currency that is not even in the allow-list still yields a 400. -/
theorem c7_reversed_dates_rejected_witness :
    statusOfG (generate_report true (some "2025-05-31") (some "2025-05-01") (some "BADCUR")
        providerOk).1 = 400 :=
  (c7_reversed_dates_rejected "2025-05-31" "2025-05-01" (some "BADCUR") providerOk
      20250531 20250501 (by decide) (by decide) (by decide)).1

/-- Claim C8 (confirmed): an unexpected error message is classified by
pattern-matching: an API-key marker (checked first) yields the credential
error, otherwise a quota/limit marker yields the quota error, otherwise the
generic message is produced — always as a structured payload with HTTP
status 500. -/
theorem c8_error_classification (msg : String) :
    statusOfG (classifyError msg) = 500 ∧
    (hasKeyMarker msg = true →
      classifyError msg = .errResp 500 "Gemini API key is invalid or missing") ∧
    (hasKeyMarker msg = false → hasQuotaMarker msg = true →
      classifyError msg = .errResp 500 "API quota exceeded. Please try again later.") ∧
    (hasKeyMarker msg = false → hasQuotaMarker msg = false →
      classifyError msg = .errResp 500 ("An error occurred: " ++ msg)) := by
  by_cases hk : containsSub "API_KEY".toList (upperS msg).toList = true
  · refine ⟨?_, fun _ => ?_, ?_, ?_⟩
    · unfold classifyError
      rw [if_pos hk]
      rfl
    · unfold classifyError
      rw [if_pos hk]
    · intro hkf _
      unfold hasKeyMarker at hkf
      rw [hkf] at hk
      cases hk
    · intro hkf _
      unfold hasKeyMarker at hkf
      rw [hkf] at hk
      cases hk
  · have hk' : containsSub "API_KEY".toList (upperS msg).toList = false := by
      simpa using hk
    by_cases hq : (containsSub "QUOTA".toList (upperS msg).toList ||
        containsSub "LIMIT".toList (upperS msg).toList) = true
    · refine ⟨?_, ?_, fun _ _ => ?_, ?_⟩
      · unfold classifyError
        rw [if_neg (show ¬ _ = true by rw [hk']; decide), if_pos hq]
        rfl
      · intro hkt
        unfold hasKeyMarker at hkt
        rw [hkt] at hk'
        cases hk'
      · unfold classifyError
        rw [if_neg (show ¬ _ = true by rw [hk']; decide), if_pos hq]
      · intro _ hqf
        unfold hasQuotaMarker at hqf
        rw [hqf] at hq
        cases hq
    · have hq' : (containsSub "QUOTA".toList (upperS msg).toList ||
          containsSub "LIMIT".toList (upperS msg).toList) = false := by
        simpa using hq
      refine ⟨?_, ?_, ?_, fun _ _ => ?_⟩
      · unfold classifyError
        rw [if_neg (show ¬ _ = true by rw [hk']; decide), if_neg (show ¬ _ = true by rw [hq']; decide)]
        rfl
      · intro hkt
        unfold hasKeyMarker at hkt
        rw [hkt] at hk'
        cases hk'
      · intro _ hqt
        unfold hasQuotaMarker at hqt
        rw [hqt] at hq'
        cases hq'
      · unfold classifyError
        rw [if_neg (show ¬ _ = true by rw [hk']; decide), if_neg (show ¬ _ = true by rw [hq']; decide)]

/-- Witness for `c8_error_classification`: a message carrying the API-key
marker is surfaced as the credential error. -/
theorem c8_error_classification_witness :
    classifyError "API_KEY invalid" = .errResp 500 "Gemini API key is invalid or missing" :=
  (c8_error_classification "API_KEY invalid").2.1 (by decide)

/-- Claim C9 (confirmed): every successful download request is served under
the filename `currency_report_<currency>_<start>_to_<end>.pdf`, and the
emitted document body is non-empty (the title cells are always written). -/
theorem c9_download_filename (report currency start_date end_date : String)
    (h : report ≠ "") :
    filenameOf (download_pdf report currency start_date end_date) =
      some ("currency_report_" ++ currency ++ "_" ++ start_date ++ "_to_" ++ end_date
        ++ ".pdf") ∧
    ∃ b, bodyOf (download_pdf report currency start_date end_date) = some b ∧ b ≠ [] := by
  unfold download_pdf
  rw [if_neg h]
  exact ⟨rfl, ⟨_, rfl, by simp⟩⟩

/-- Witness for `c9_download_filename` at the specification's example
request. -/
theorem c9_download_filename_witness :
    filenameOf (download_pdf (String.mk (List.replicate 200 'A')) "USDINR" "2025-05-01"
        "2025-05-31") =
      some "currency_report_USDINR_2025-05-01_to_2025-05-31.pdf" := by
  have h := (c9_download_filename (String.mk (List.replicate 200 'A')) "USDINR" "2025-05-01"
    "2025-05-31" (by decide)).1
  rw [h]
  rfl

/-- Claim C10 (confirmed): the API-key guard precedes all input validation:
with the credential unset, every request — whatever its fields — receives
the 500 configuration error and no model call is made, never a 400. -/
theorem c10_key_guard_first (start_date end_date currency : Option String)
    (provider : String → ProviderCall) :
    generate_report false start_date end_date currency provider =
      (.errResp 500 "Gemini API key is not configured", []) := rfl

example : paginate "ab cd".toList = ["ab cd".toList] := by decide

example :
    wrapLine (List.replicate 50 'a' ++ [' '] ++ List.replicate 50 'b') =
      [List.replicate 50 'a', List.replicate 50 'b'] := by decide

example : paginate (List.replicate 81 'a') = [List.replicate 81 'a'] := by decide
